import Mathlib

/-!
Shallow embedding of the heterogeneous typed container `gtsam::Values`
(`gtsam/nonlinear/Values-inl.h`): the runtime-typed holders, the
fixed-size/dynamic-size numeric promotion performed by
`internal::handle_wrap`, the typed accessors `at`/`exists`, the retrieval
helpers `internal::handle`, and the filtered views.

Modelling conventions:
* A C++ `Key` is a `Nat` (an opaque, totally ordered integer-like id).
* The open-ended set of storable concrete types is modelled by `CType`:
  fixed-size numeric vectors `Eigen::Matrix<double, n, 1>`, the dynamic
  vector `Eigen::Matrix<double, -1, 1>`, fixed-size matrices
  `Eigen::Matrix<double, m, n>`, the dynamic matrix
  `Eigen::Matrix<double, -1, -1>`, and arbitrary non-numeric manifold
  types (`Rot3`, `Pose3`, ...) represented by a tag.
* `double` entries are modelled by `Int`: the container only stores,
  copies and compares entries, it never performs arithmetic on them, so
  any type with decidable equality is a faithful carrier.
* A `GenericValue<T>` holder is a `CVal`: the constructor identifies the
  stored concrete type (`typeid(*pointer)`), the fields hold the payload.
* C++ exceptions become the `Except VErr` monad; the constructors of
  `VErr` carry exactly the data the corresponding exception classes carry.
-/

set_option autoImplicit false

namespace gtsam

/-- The compile-time type `T` of a storable payload (`typeid(T)`). -/
inductive CType : Type
  | vecFixed (n : Nat)
  | vecDyn
  | matFixed (m n : Nat)
  | matDyn
  | manifold (tag : Nat)
deriving DecidableEq

/-- A concrete payload value together with its concrete C++ type:
`vecF n e` is an `Eigen::Matrix<double, n, 1>` with entries `e`,
`vecD e` an `Eigen::Matrix<double, -1, 1>`, `matF m n rows` an
`Eigen::Matrix<double, m, n>` given by its rows, `matD m n rows` an
`Eigen::Matrix<double, -1, -1>` with runtime dimensions `m × n`, and
`manifold tag p` a value of a non-numeric manifold type. -/
inductive CVal : Type
  | vecF (n : Nat) (entries : List Int)
  | vecD (entries : List Int)
  | matF (m n : Nat) (rows : List (List Int))
  | matD (m n : Nat) (rows : List (List Int))
  | manifold (tag : Nat) (payload : Int)
deriving DecidableEq

/-- `typeid` of the concrete type stored in a holder. -/
def CVal.ctype : CVal → CType
  | .vecF n _ => .vecFixed n
  | .vecD _ => .vecDyn
  | .matF m n _ => .matFixed m n
  | .matD _ _ _ => .matDyn
  | .manifold tag _ => .manifold tag

/-- Runtime row count of a numeric array value (`A.rows()`); 0 for
non-numeric values. -/
def CVal.rowsOf : CVal → Nat
  | .vecF n _ => n
  | .vecD e => e.length
  | .matF m _ _ => m
  | .matD m _ _ => m
  | .manifold _ _ => 0

/-- Runtime column count of a numeric array value (`A.cols()`); 0 for
non-numeric values. -/
def CVal.colsOf : CVal → Nat
  | .vecF _ _ => 1
  | .vecD _ => 1
  | .matF _ n _ => n
  | .matD _ n _ => n
  | .manifold _ _ => 0

/-- The element data of a numeric array value, as a list of rows (a
vector is the single-row list of its entries); `[]` for non-numeric
values. Two numeric values "hold the same element values" iff their
`elements` agree. -/
def CVal.elements : CVal → List (List Int)
  | .vecF _ e => [e]
  | .vecD e => [e]
  | .matF _ _ rows => rows
  | .matD _ _ rows => rows
  | .manifold _ _ => []

/-- Well-formedness of a payload: the runtime data has exactly the shape
the compile-time type dictates (every `Eigen::Matrix<double, n, 1>` value
has `n` entries, etc.). -/
def CVal.wfb : CVal → Bool
  | .vecF n e => e.length == n
  | .vecD _ => true
  | .matF m n rows => rows.length == m && rows.all (fun r => r.length == n)
  | .matD m n rows => rows.length == m && rows.all (fun r => r.length == n)
  | .manifold _ _ => true

/-- Is `T` a fixed-size numeric array type? -/
def CType.isFixed : CType → Bool
  | .vecFixed _ => true
  | .matFixed _ _ => true
  | _ => false

/-- The exceptions thrown by the container, with the data their C++
classes carry: `ValuesKeyDoesNotExist(operation, key)`,
`ValuesIncorrectType(key, actual, requested)`,
`NoMatchFoundForFixed(M, N, rows, cols)` (the "ShapeMismatch" error), and
`ValuesKeyAlreadyExists(key)` (the "DuplicateKey" error). -/
inductive VErr : Type
  | ValuesKeyDoesNotExist (op : String) (j : Nat)
  | ValuesIncorrectType (j : Nat) (actualType requestedType : CType)
  | NoMatchFoundForFixed (M N rows cols : Nat)
  | ValuesKeyAlreadyExists (j : Nat)
deriving DecidableEq

/-- `internal::handle_wrap` (Values-inl.h:416-444): the holder actually
constructed by the templated `insert`/`update`. A fixed-size vector value
is stored as a `GenericValue<Eigen::Matrix<double, -1, 1>>`, a fixed-size
matrix as a `GenericValue<Eigen::Matrix<double, -1, -1>>` (same element
values, dynamic type); every other type is stored as itself. -/
def handle_wrap : CVal → CVal
  | .vecF _ e => .vecD e
  | .matF m n rows => .matD m n rows
  | v => v

/-- The action of `internal::handle_wrap` on compile-time types: the
concrete payload type under which a value of type `T` is actually
stored. -/
def handle_wrapType : CType → CType
  | .vecFixed _ => .vecDyn
  | .matFixed _ _ => .matDyn
  | T => T

/-- A `Key` is an opaque totally ordered identifier. -/
abbrev Key := Nat

/-- The container's key → holder mapping (`KeyValueMap`), kept in
ascending key order as iterated. -/
abbrev Values := List (Key × CVal)

/-- Keys strictly ascend along the container's iteration order (the
`std::map` invariant of `KeyValueMap`). -/
abbrev Values.sortedKeys (vs : Values) : Prop :=
  List.Pairwise (fun a b => a.1 < b.1) vs

/-- `values_.find(j)` : locate the holder stored under key `j`. -/
def Values.find (j : Key) : Values → Option CVal
  | [] => none
  | (k, v) :: rest => if j = k then some v else Values.find j rest

/-- Insert `(j, v)` at its sorted position (what `values_.insert` does to
the ordered map when the key is new). -/
def Values.insertSorted (j : Key) (v : CVal) : Values → Values
  | [] => [(j, v)]
  | (k, w) :: rest =>
    if j < k then (j, v) :: (k, w) :: rest
    else (k, w) :: Values.insertSorted j v rest

/-- Replace the holder stored under key `j` wholesale. -/
def Values.replaceValue (j : Key) (v : CVal) : Values → Values
  | [] => []
  | (k, w) :: rest =>
    if k = j then (j, v) :: rest else (k, w) :: Values.replaceValue j v rest

/-- Remove the entry stored under key `j`. -/
def Values.removeKey (j : Key) : Values → Values
  | [] => []
  | (k, w) :: rest =>
    if k = j then rest else (k, w) :: Values.removeKey j rest

/-- Modelled from the spec: the non-templated
`Values::insert(Key, const Value&)` is defined in `Values.cpp`, which is
not part of the studied source slice. Per spec §4.3 it fails with
`DuplicateKey` if the key is already present and otherwise adds the
holder under the key, keeping entries in ascending key order. -/
def Values.insertValue (j : Key) (v : CVal) (vs : Values) : Except VErr Values :=
  match Values.find j vs with
  | some _ => .error (.ValuesKeyAlreadyExists j)
  | none => .ok (Values.insertSorted j v vs)

/-- Modelled from the spec: the non-templated
`Values::update(Key, const Value&)` is defined in `Values.cpp`, absent
from the source slice. Per spec §4.3 it fails with `KeyDoesNotExist` if
the key is absent and otherwise replaces the existing holder wholesale. -/
def Values.updateValue (j : Key) (v : CVal) (vs : Values) : Except VErr Values :=
  match Values.find j vs with
  | some _ => .ok (Values.replaceValue j v vs)
  | none => .error (.ValuesKeyDoesNotExist "update" j)

/-- Modelled from the spec: `Values::erase(Key)` is defined in
`Values.cpp`, absent from the source slice. Per spec §4.3 it removes the
entry and fails with `KeyDoesNotExist` if the key is absent. -/
def Values.erase (j : Key) (vs : Values) : Except VErr Values :=
  match Values.find j vs with
  | some _ => .ok (Values.removeKey j vs)
  | none => .error (.ValuesKeyDoesNotExist "erase" j)

/-- The templated `Values::insert(Key, const ValueType&)`
(Values-inl.h:447-450): wraps the value through `internal::handle_wrap`
and hands it to the non-templated insert. -/
def Values.insert (j : Key) (val : CVal) (vs : Values) : Except VErr Values :=
  Values.insertValue j (handle_wrap val) vs

/-- The templated `Values::update(Key, const ValueType&)`
(Values-inl.h:453-456): wraps the value through `internal::handle_wrap`
and hands it to the non-templated update. -/
def Values.update (j : Key) (val : CVal) (vs : Values) : Except VErr Values :=
  Values.updateValue j (handle_wrap val) vs

/-- `Values::at<ValueType>(Key)` (Values-inl.h:372-390): find the item,
throw `ValuesKeyDoesNotExist("at", j)` if absent; otherwise
`dynamic_cast` the holder to `GenericValue<ValueType>` directly — the
cast succeeds exactly when the stored concrete type equals the requested
type — and on `bad_cast` throw
`ValuesIncorrectType(j, typeid(*value), typeid(ValueType))`. Note: this
definition of `at` does not route through `internal::handle`. -/
def Values.at' (T : CType) (j : Key) (vs : Values) : Except VErr CVal :=
  match Values.find j vs with
  | none => .error (.ValuesKeyDoesNotExist "at" j)
  | some value =>
    if CVal.ctype value = T then .ok value
    else .error (.ValuesIncorrectType j (CVal.ctype value) T)

/-- `Values::exists<ValueType>(Key)` (Values-inl.h:393-411): if the key
is present, `dynamic_cast` the holder exactly as `at` does (throwing
`ValuesIncorrectType` on mismatch) and return the value; if the key is
absent, return `boost::none`. -/
def Values.exists' (T : CType) (j : Key) (vs : Values) : Except VErr (Option CVal) :=
  match Values.find j vs with
  | some value =>
    if CVal.ctype value = T then .ok (some value)
    else .error (.ValuesIncorrectType j (CVal.ctype value) T)
  | none => .ok none

/-- `internal::handle<ValueType>` (Values-inl.h:277-366), the retrieval
helper family: first try the exact `dynamic_cast` to
`GenericValue<T>`. On `bad_cast`, if `T` is a fixed-size vector
`Eigen::Matrix<double, M, 1>` retry against the stored dynamic vector
(itself throwing `ValuesIncorrectType(j, typeid(*pointer), VectorXd)` if
the stored value is not a dynamic vector), then compare the runtime shape
`(A.rows(), A.cols())` against `(M, 1)` — throwing
`NoMatchFoundForFixed(M, 1, A.rows(), A.cols())` on mismatch and
returning the reshaped copy on match; symmetrically for a fixed-size
matrix `Eigen::Matrix<double, M, N>` against the stored dynamic matrix;
for every other `T` throw
`ValuesIncorrectType(j, typeid(*pointer), typeid(T))`. -/
def internal.handle (T : CType) (j : Key) (v : CVal) : Except VErr CVal :=
  if CVal.ctype v = T then .ok v
  else
    match T with
    | .vecFixed M =>
      match v with
      | .vecD e =>
        if e.length = M then .ok (.vecF M e)
        else .error (.NoMatchFoundForFixed M 1 e.length 1)
      | _ => .error (.ValuesIncorrectType j (CVal.ctype v) .vecDyn)
    | .matFixed M N =>
      match v with
      | .matD r c rows =>
        if r = M ∧ c = N then .ok (.matF M N rows)
        else .error (.NoMatchFoundForFixed M N r c)
      | _ => .error (.ValuesIncorrectType j (CVal.ctype v) .matDyn)
    | _ => .error (.ValuesIncorrectType j (CVal.ctype v) T)

/-- Modelled from the spec: the general `Values::filterHelper<ValueType>`
template is declared in `Values.h`, which is not part of the studied
source slice (only its `<Value>` specialization appears in
Values-inl.h:265-270). Per spec §4.3/§4.4 the combined predicate tests
the caller's key predicate AND that the stored holder's concrete type is
exactly `ValueType`. -/
def Values.filterHelper (T : CType) (filterFcn : Key → Bool) (kv : Key × CVal) : Bool :=
  filterFcn kv.1 && (CVal.ctype kv.2 == T)

/-- `Values::filter<ValueType>` (Values-inl.h:245-249): the sequence of
key/value pairs the filtered view yields — the container's native
ascending-key iteration with entries failing the combined predicate
skipped (the `boost::filter_iterator` stage); the cast stage re-exposes
each surviving holder at its concrete type, which the model's `CVal`
already carries. -/
def Values.filter (T : CType) (filterFcn : Key → Bool) (vs : Values) : List (Key × CVal) :=
  List.filter (Values.filterHelper T filterFcn) vs

/-- `Values::Filtered::size` (Values-inl.h:129-134): traverse the whole
filtered sequence and count. -/
def Filtered.size : List (Key × CVal) → Nat
  | [] => 0
  | _ :: rest => Filtered.size rest + 1

/-- `Values::ConstFiltered::keys` (Values-inl.h:197-202): the keys of all
entries the view yields, in the view's iteration order. -/
def ConstFiltered.keys (view : List (Key × CVal)) : List Key :=
  view.map Prod.fst

/-- The loop body of `Values::Values(const ConstFiltered<ValueType>&)`
(Values-inl.h:230-236): walk the view and `insert` each entry under its
original key (through the templated insert, hence through
`internal::handle_wrap`); a thrown exception aborts the construction. -/
def Values.fromViewList : List (Key × CVal) → Values → Except VErr Values
  | [], acc => .ok acc
  | (k, v) :: rest, acc =>
    match Values.insert k v acc with
    | .ok acc2 => Values.fromViewList rest acc2
    | .error e => .error e

/-- `Values::Values(const ConstFiltered<ValueType>&)`: build a fresh
container from the view `filter<T>(pred)` over `vs`. -/
def Values.ofConstFiltered (T : CType) (pred : Key → Bool) (vs : Values) : Except VErr Values :=
  Values.fromViewList (Values.filter T pred vs) []

/-- The container stores no fixed-size numeric array type directly: the
promotion invariant on stored holders. -/
abbrev Values.storedTypesOK (vs : Values) : Prop :=
  ∀ kv ∈ vs, CType.isFixed (CVal.ctype kv.2) = false

/-!
Theorems. Claim theorems are named `Cn_...`; the lemmas preceding them are
shared infrastructure about the embedded operations.
-/

/-- C1: the spec claims that inserting a fixed-size numeric vector of length
3 and then calling `at` requesting the fixed-size-3 type succeeds with an
equal value, while requesting the fixed-size-4 type fails with
`ShapeMismatch(4,1,3,1)`. On this source, `internal::handle_wrap` does store
the promoted dynamic-size holder, but `Values::at` performs a direct
`dynamic_cast` to `GenericValue<T>` and never routes through
`internal::handle`, so both requests fail with `ValuesIncorrectType`; the
retrieval helper `internal::handle` — present in the source and cited as the
shape-checking path, yet unused by `at` — realizes exactly the claimed
behavior at the same stored holder. -/
theorem C1_promotion_round_trip :
    Values.insert 0 (CVal.vecF 3 [1, 2, 3]) [] = .ok [(0, CVal.vecD [1, 2, 3])] ∧
    Values.at' (CType.vecFixed 3) 0 [(0, CVal.vecD [1, 2, 3])] =
      .error (.ValuesIncorrectType 0 CType.vecDyn (CType.vecFixed 3)) ∧
    Values.at' (CType.vecFixed 4) 0 [(0, CVal.vecD [1, 2, 3])] =
      .error (.ValuesIncorrectType 0 CType.vecDyn (CType.vecFixed 4)) ∧
    internal.handle (CType.vecFixed 3) 0 (CVal.vecD [1, 2, 3]) =
      .ok (CVal.vecF 3 [1, 2, 3]) ∧
    internal.handle (CType.vecFixed 4) 0 (CVal.vecD [1, 2, 3]) =
      .error (.NoMatchFoundForFixed 4 1 3 1) :=
  ⟨rfl, rfl, rfl, rfl, rfl⟩

/-- C2: the spec claims the `insert`/`at` round trip returns an equal value
for every storable type `T`. On this source it fails whenever `T` is a
fixed-size numeric array type: inserting the fixed-size vector `[4, 5, 6]`
under key 1 stores the dynamic-size holder, and `at` requesting the
fixed-size type throws `ValuesIncorrectType` instead of returning the value
(because `at` bypasses `internal::handle`); for a non-promoted storable type
the round trip does return an equal value. -/
theorem C2_round_trip :
    Values.insert 1 (CVal.vecF 3 [4, 5, 6]) [] = .ok [(1, CVal.vecD [4, 5, 6])] ∧
    Values.at' (CType.vecFixed 3) 1 [(1, CVal.vecD [4, 5, 6])] =
      .error (.ValuesIncorrectType 1 CType.vecDyn (CType.vecFixed 3)) ∧
    Values.insert 2 (CVal.manifold 1 9) [] = .ok [(2, CVal.manifold 1 9)] ∧
    Values.at' (CType.manifold 1) 2 [(2, CVal.manifold 1 9)] = .ok (CVal.manifold 1 9) :=
  ⟨rfl, rfl, rfl, rfl⟩

/-- C4: `exists` on an absent key returns the empty result and raises no
error, while `exists` on a present key whose stored concrete type differs
from the requested type fails with `ValuesIncorrectType` — key absence and
wrong-type presence are never conflated. -/
theorem C4_exists_absent_vs_wrong_type (vs : Values) (j : Key) (T : CType) :
    (Values.find j vs = none → Values.exists' T j vs = .ok none) ∧
    (∀ v, Values.find j vs = some v → CVal.ctype v ≠ T →
      Values.exists' T j vs = .error (.ValuesIncorrectType j (CVal.ctype v) T)) := by
  constructor
  · intro h
    simp [Values.exists', h]
  · intro v hv hne
    simp [Values.exists', hv, hne]

/-- Witness for C4 at a concrete container. -/
theorem C4_witness :
    Values.exists' (CType.manifold 0) 1 [(0, CVal.manifold 0 5)] = .ok none ∧
    Values.exists' CType.vecDyn 0 [(0, CVal.manifold 0 5)] =
      .error (.ValuesIncorrectType 0 (CType.manifold 0) CType.vecDyn) :=
  ⟨(C4_exists_absent_vs_wrong_type [(0, CVal.manifold 0 5)] 1 (CType.manifold 0)).1 rfl,
   (C4_exists_absent_vs_wrong_type [(0, CVal.manifold 0 5)] 0 CType.vecDyn).2
     (CVal.manifold 0 5) rfl (by decide)⟩

/-- C7: if key `k` holds a value whose stored concrete type is `A`, then
`at` requesting an unrelated type `B` — one that neither equals `A` nor has
`A` as its promoted dynamic-size counterpart — fails with
`ValuesIncorrectType` carrying `k`, the actual type `A` and the requested
type `B`. -/
theorem C7_incorrect_type (vs : Values) (k : Key) (v : CVal) (A B : CType)
    (hfind : Values.find k vs = some v) (hA : CVal.ctype v = A)
    (hBA : B ≠ A) (hwrap : handle_wrapType B ≠ A) :
    Values.at' B k vs = .error (.ValuesIncorrectType k A B) := by
  subst hA
  simp [Values.at', hfind, hBA.symm]

/-- Witness for C7 at a concrete container. -/
theorem C7_witness :
    Values.at' (CType.vecFixed 3) 0 [(0, CVal.manifold 0 5)] =
      .error (.ValuesIncorrectType 0 (CType.manifold 0) (CType.vecFixed 3)) :=
  C7_incorrect_type [(0, CVal.manifold 0 5)] 0 (CVal.manifold 0 5)
    (CType.manifold 0) (CType.vecFixed 3) rfl rfl (by decide) (by decide)

/-- C8: on an absent key, `at`, `update` and `erase` each fail with
`ValuesKeyDoesNotExist` naming the operation and the key, while `exists`
returns the empty result and raises no error. -/
theorem C8_missing_key (vs : Values) (k : Key) (T : CType) (v : CVal)
    (h : Values.find k vs = none) :
    Values.at' T k vs = .error (.ValuesKeyDoesNotExist "at" k) ∧
    Values.update k v vs = .error (.ValuesKeyDoesNotExist "update" k) ∧
    Values.erase k vs = .error (.ValuesKeyDoesNotExist "erase" k) ∧
    Values.exists' T k vs = .ok none := by
  refine ⟨?_, ?_, ?_, ?_⟩ <;>
    simp [Values.at', Values.update, Values.updateValue, Values.erase,
      Values.exists', h]

/-- Witness for C8 at a concrete container. -/
theorem C8_witness :
    Values.at' CType.vecDyn 7 [(2, CVal.vecD [1])] =
      .error (.ValuesKeyDoesNotExist "at" 7) ∧
    Values.update 7 (CVal.vecD [9]) [(2, CVal.vecD [1])] =
      .error (.ValuesKeyDoesNotExist "update" 7) ∧
    Values.erase 7 [(2, CVal.vecD [1])] =
      .error (.ValuesKeyDoesNotExist "erase" 7) ∧
    Values.exists' CType.vecDyn 7 [(2, CVal.vecD [1])] = .ok none :=
  C8_missing_key [(2, CVal.vecD [1])] 7 CType.vecDyn (CVal.vecD [9]) rfl

/-- C9: `insert` on a key that is already present fails with
`ValuesKeyAlreadyExists` (DuplicateKey); the operation produces only the
error and no successor container, so no entry is added or replaced. -/
theorem C9_duplicate_insert (vs : Values) (k : Key) (v w : CVal)
    (h : Values.find k vs = some w) :
    Values.insert k v vs = .error (.ValuesKeyAlreadyExists k) := by
  simp [Values.insert, Values.insertValue, h]

/-- Witness for C9 at a concrete container. -/
theorem C9_witness :
    Values.insert 3 (CVal.manifold 0 2) [(3, CVal.vecD [1])] =
      .error (.ValuesKeyAlreadyExists 3) :=
  C9_duplicate_insert [(3, CVal.vecD [1])] 3 (CVal.manifold 0 2) (CVal.vecD [1]) rfl

/-- C10: on a present key, `at` and `exists` agree: `at` succeeds with `w`
exactly when `exists` returns the non-empty result holding `w`, and `at`
fails with an error exactly when `exists` fails with the same error (same
key, same actual type, same requested type). -/
theorem C10_at_exists_agree (vs : Values) (k : Key) (T : CType) (v : CVal)
    (h : Values.find k vs = some v) :
    (∀ w, Values.at' T k vs = .ok w ↔ Values.exists' T k vs = .ok (some w)) ∧
    (∀ e, Values.at' T k vs = .error e ↔ Values.exists' T k vs = .error e) := by
  by_cases hT : CVal.ctype v = T <;>
    constructor <;> intro x <;> simp [Values.at', Values.exists', h, hT]

/-- Witness for C10 at a concrete container. -/
theorem C10_witness :
    (Values.at' (CType.manifold 2) 4 [(4, CVal.manifold 2 8)] =
        .ok (CVal.manifold 2 8) ↔
      Values.exists' (CType.manifold 2) 4 [(4, CVal.manifold 2 8)] =
        .ok (some (CVal.manifold 2 8))) ∧
    (Values.at' CType.matDyn 4 [(4, CVal.manifold 2 8)] =
        .error (.ValuesIncorrectType 4 (CType.manifold 2) CType.matDyn) ↔
      Values.exists' CType.matDyn 4 [(4, CVal.manifold 2 8)] =
        .error (.ValuesIncorrectType 4 (CType.manifold 2) CType.matDyn)) :=
  ⟨(C10_at_exists_agree [(4, CVal.manifold 2 8)] 4 (CType.manifold 2)
      (CVal.manifold 2 8) rfl).1 (CVal.manifold 2 8),
   (C10_at_exists_agree [(4, CVal.manifold 2 8)] 4 CType.matDyn
      (CVal.manifold 2 8) rfl).2
     (.ValuesIncorrectType 4 (CType.manifold 2) CType.matDyn)⟩

/-- The promotion on values shadows the promotion on types. -/
lemma handle_wrap_ctype (v : CVal) :
    CVal.ctype (handle_wrap v) = handle_wrapType (CVal.ctype v) := by
  cases v <;> rfl

/-- No promoted type is a fixed-size numeric array type. -/
lemma isFixed_handle_wrapType (T : CType) :
    CType.isFixed (handle_wrapType T) = false := by
  cases T <;> rfl

/-- Promotion preserves the element data. -/
lemma elements_handle_wrap (v : CVal) :
    CVal.elements (handle_wrap v) = CVal.elements v := by
  cases v <;> rfl

/-- Promotion of a well-formed payload preserves the runtime row count. -/
lemma rowsOf_handle_wrap (v : CVal) (h : CVal.wfb v = true) :
    CVal.rowsOf (handle_wrap v) = CVal.rowsOf v := by
  cases v <;> simp_all [CVal.wfb, CVal.rowsOf, handle_wrap]

/-- Promotion preserves the runtime column count. -/
lemma colsOf_handle_wrap (v : CVal) :
    CVal.colsOf (handle_wrap v) = CVal.colsOf v := by
  cases v <;> rfl

/-- A value whose type is already dynamic (or non-numeric) is stored
unchanged. -/
lemma handle_wrap_eq_self (v : CVal) (h : CType.isFixed (CVal.ctype v) = false) :
    handle_wrap v = v := by
  cases v <;> simp_all [CVal.ctype, CType.isFixed, handle_wrap]

/-- Every member of `insertSorted j v vs` is `(j, v)` or a member of `vs`. -/
lemma mem_insertSorted (j : Key) (v : CVal) (vs : Values) (kv : Key × CVal) :
    kv ∈ Values.insertSorted j v vs → kv = (j, v) ∨ kv ∈ vs := by
  induction vs with
  | nil =>
    intro h
    simp [Values.insertSorted] at h
    exact Or.inl h
  | cons hd tl ih =>
    obtain ⟨k, w⟩ := hd
    intro h
    simp only [Values.insertSorted] at h
    simp only [List.mem_cons]
    by_cases hlt : j < k
    · simp only [if_pos hlt, List.mem_cons] at h
      tauto
    · simp only [if_neg hlt, List.mem_cons] at h
      rcases h with h | h
      · exact Or.inr (Or.inl h)
      · rcases ih h with h2 | h2
        · exact Or.inl h2
        · exact Or.inr (Or.inr h2)

/-- Every member of `replaceValue j v vs` is `(j, v)` or a member of `vs`. -/
lemma mem_replaceValue (j : Key) (v : CVal) (vs : Values) (kv : Key × CVal) :
    kv ∈ Values.replaceValue j v vs → kv = (j, v) ∨ kv ∈ vs := by
  induction vs with
  | nil =>
    intro h
    simp [Values.replaceValue] at h
  | cons hd tl ih =>
    obtain ⟨k, w⟩ := hd
    intro h
    simp only [Values.replaceValue] at h
    simp only [List.mem_cons]
    by_cases hk : k = j
    · simp only [if_pos hk, List.mem_cons] at h
      tauto
    · simp only [if_neg hk, List.mem_cons] at h
      rcases h with h | h
      · exact Or.inr (Or.inl h)
      · rcases ih h with h2 | h2
        · exact Or.inl h2
        · exact Or.inr (Or.inr h2)

/-- After inserting a fresh key at its sorted position, `find` retrieves
the inserted holder. -/
lemma find_insertSorted_self (j : Key) (v : CVal) (vs : Values) :
    Values.find j vs = none →
    Values.find j (Values.insertSorted j v vs) = some v := by
  induction vs with
  | nil =>
    intro _
    simp [Values.insertSorted, Values.find]
  | cons hd tl ih =>
    obtain ⟨k, w⟩ := hd
    intro h
    simp only [Values.find] at h
    by_cases hjk : j = k
    · simp [hjk] at h
    · simp only [if_neg hjk] at h
      simp only [Values.insertSorted]
      by_cases hlt : j < k
      · simp [hlt, Values.find]
      · simp [hlt, Values.find, hjk, ih h]

/-- After replacing the holder under a present key, `find` retrieves the
replacement. -/
lemma find_replaceValue_self (j : Key) (v : CVal) (vs : Values) (w : CVal) :
    Values.find j vs = some w →
    Values.find j (Values.replaceValue j v vs) = some v := by
  induction vs with
  | nil =>
    intro h
    simp [Values.find] at h
  | cons hd tl ih =>
    obtain ⟨k, w2⟩ := hd
    intro h
    simp only [Values.find] at h
    simp only [Values.replaceValue]
    by_cases hk : k = j
    · simp [hk, Values.find]
    · have hjk : ¬j = k := fun hh => hk hh.symm
      simp only [if_neg hjk] at h
      simp [hk, Values.find, hjk, ih h]

/-- C3: every successful `insert` or `update` of a value `v` stores, under
the given key, the holder produced by the promotion rule: its concrete
payload type is the dynamic-size counterpart of `v`'s type — never a
fixed-size numeric array type — and it holds the same element values (and,
for a well-formed payload, the same runtime shape); the
no-fixed-size-type-stored invariant is preserved by the operation. -/
theorem C3_promotion_invariant (vs vs2 : Values) (j : Key) (v : CVal)
    (hinv : Values.storedTypesOK vs)
    (hop : Values.insert j v vs = .ok vs2 ∨ Values.update j v vs = .ok vs2) :
    Values.storedTypesOK vs2 ∧
    Values.find j vs2 = some (handle_wrap v) ∧
    CVal.ctype (handle_wrap v) = handle_wrapType (CVal.ctype v) ∧
    CType.isFixed (CVal.ctype (handle_wrap v)) = false ∧
    CVal.elements (handle_wrap v) = CVal.elements v ∧
    (CVal.wfb v = true →
      CVal.rowsOf (handle_wrap v) = CVal.rowsOf v ∧
      CVal.colsOf (handle_wrap v) = CVal.colsOf v) := by
  have hfixed : CType.isFixed (CVal.ctype (handle_wrap v)) = false := by
    rw [handle_wrap_ctype]
    exact isFixed_handle_wrapType _
  have hrest : CVal.ctype (handle_wrap v) = handle_wrapType (CVal.ctype v) ∧
      CType.isFixed (CVal.ctype (handle_wrap v)) = false ∧
      CVal.elements (handle_wrap v) = CVal.elements v ∧
      (CVal.wfb v = true →
        CVal.rowsOf (handle_wrap v) = CVal.rowsOf v ∧
        CVal.colsOf (handle_wrap v) = CVal.colsOf v) :=
    ⟨handle_wrap_ctype v, hfixed, elements_handle_wrap v,
     fun hw => ⟨rowsOf_handle_wrap v hw, colsOf_handle_wrap v⟩⟩
  rcases hop with hop | hop
  · unfold Values.insert Values.insertValue at hop
    cases hfind : Values.find j vs with
    | some w =>
      rw [hfind] at hop
      exact absurd hop (by simp)
    | none =>
      rw [hfind] at hop
      have hvs2 : Values.insertSorted j (handle_wrap v) vs = vs2 := by
        simpa using hop
      subst hvs2
      refine ⟨?_, find_insertSorted_self j (handle_wrap v) vs hfind, hrest⟩
      intro kv hkv
      rcases mem_insertSorted j (handle_wrap v) vs kv hkv with h2 | h2
      · rw [h2]
        exact hfixed
      · exact hinv kv h2
  · unfold Values.update Values.updateValue at hop
    cases hfind : Values.find j vs with
    | none =>
      rw [hfind] at hop
      exact absurd hop (by simp)
    | some w =>
      rw [hfind] at hop
      have hvs2 : Values.replaceValue j (handle_wrap v) vs = vs2 := by
        simpa using hop
      subst hvs2
      refine ⟨?_, find_replaceValue_self j (handle_wrap v) vs w hfind, hrest⟩
      intro kv hkv
      rcases mem_replaceValue j (handle_wrap v) vs kv hkv with h2 | h2
      · rw [h2]
        exact hfixed
      · exact hinv kv h2

/-- Witness for C3: inserting the fixed-size vector `[1, 2, 3]` into the
empty container stores the dynamic-size holder with the same elements. -/
theorem C3_witness :
    Values.storedTypesOK [(0, CVal.vecD [1, 2, 3])] ∧
    Values.find 0 [(0, CVal.vecD [1, 2, 3])] = some (CVal.vecD [1, 2, 3]) ∧
    CType.isFixed (CVal.ctype (CVal.vecD [1, 2, 3])) = false ∧
    CVal.elements (CVal.vecD [1, 2, 3]) = CVal.elements (CVal.vecF 3 [1, 2, 3]) := by
  have h := C3_promotion_invariant [] [(0, CVal.vecD [1, 2, 3])] 0
    (CVal.vecF 3 [1, 2, 3]) (by decide) (Or.inl rfl)
  exact ⟨h.1, h.2.1, h.2.2.2.1, h.2.2.2.2.1⟩

/-- The view's counting loop computes the length of the filtered
sequence. -/
lemma Filtered.size_eq_length (l : List (Key × CVal)) :
    Filtered.size l = l.length := by
  induction l with
  | nil => rfl
  | cons hd tl ih => simp [Filtered.size, ih]

/-- C5: with the always-true key predicate, the view `filter<T>` yields
exactly the entries of the (key-sorted) container whose stored concrete
type is `T`, in ascending key order, and the view's `size` equals the
number of such entries. -/
theorem C5_filter_correct (vs : Values) (T : CType) (hs : Values.sortedKeys vs) :
    (∀ kv : Key × CVal,
      kv ∈ Values.filter T (fun _ => true) vs ↔ kv ∈ vs ∧ CVal.ctype kv.2 = T) ∧
    List.Pairwise (· < ·)
      (ConstFiltered.keys (Values.filter T (fun _ => true) vs)) ∧
    Filtered.size (Values.filter T (fun _ => true) vs) =
      List.countP (fun kv => CVal.ctype kv.2 == T) vs := by
  refine ⟨?_, ?_, ?_⟩
  · intro kv
    simp [Values.filter, List.mem_filter, Values.filterHelper]
  · exact List.pairwise_map.mpr (hs.filter (Values.filterHelper T (fun _ => true)))
  · rw [Values.filter, Filtered.size_eq_length, ← List.countP_eq_length_filter]
    congr 1

/-- Witness for C5 at a concrete mixed-type container: two of the three
entries store type `manifold 0`, and the view's size is 2. -/
theorem C5_witness :
    Filtered.size (Values.filter (CType.manifold 0) (fun _ => true)
      [(1, CVal.manifold 0 3), (2, CVal.vecD [1, 2]), (3, CVal.manifold 0 7)]) = 2 :=
  ((C5_filter_correct
      [(1, CVal.manifold 0 3), (2, CVal.vecD [1, 2]), (3, CVal.manifold 0 7)]
      (CType.manifold 0) (by decide)).2.2).trans (by decide)

/-- `find` misses every list all of whose keys differ from `j`. -/
lemma find_eq_none_of_forall_ne (j : Key) (vs : Values)
    (h : ∀ kv ∈ vs, kv.1 ≠ j) : Values.find j vs = none := by
  induction vs with
  | nil => rfl
  | cons hd tl ih =>
    obtain ⟨k, w⟩ := hd
    have hk : k ≠ j := h (k, w) (List.mem_cons_self _ _)
    have hjk : ¬j = k := fun hh => hk hh.symm
    simp only [Values.find, if_neg hjk]
    exact ih fun kv hkv => h kv (List.mem_cons_of_mem _ hkv)

/-- Inserting a key larger than every key present appends at the end. -/
lemma insertSorted_append (j : Key) (v : CVal) (vs : Values)
    (h : ∀ kv ∈ vs, kv.1 < j) : Values.insertSorted j v vs = vs ++ [(j, v)] := by
  induction vs with
  | nil => rfl
  | cons hd tl ih =>
    obtain ⟨k, w⟩ := hd
    have hk : k < j := by simpa using h (k, w) (List.mem_cons_self _ _)
    have hnlt : ¬j < k := lt_asymm hk
    simp only [Values.insertSorted, if_neg hnlt, List.cons_append]
    rw [ih fun kv hkv => h kv (List.mem_cons_of_mem _ hkv)]

/-- Walking a strictly key-ascending list of entries of non-fixed stored
type and re-inserting each one through the templated `insert` succeeds and
appends them to the accumulator container. -/
lemma fromViewList_append (l : List (Key × CVal)) :
    ∀ acc : Values,
    List.Pairwise (fun a b => a.1 < b.1) l →
    (∀ kv ∈ l, CType.isFixed (CVal.ctype kv.2) = false) →
    (∀ kv ∈ acc, ∀ kv2 ∈ l, kv.1 < kv2.1) →
    Values.fromViewList l acc = .ok (acc ++ l) := by
  induction l with
  | nil =>
    intro acc _ _ _
    simp [Values.fromViewList]
  | cons hd tl ih =>
    intro acc hp hw hacc
    obtain ⟨k, v⟩ := hd
    rcases List.pairwise_cons.mp hp with ⟨hrel, htl⟩
    have hfix : CType.isFixed (CVal.ctype v) = false :=
      hw (k, v) (List.mem_cons_self _ _)
    have hwrap : handle_wrap v = v := handle_wrap_eq_self v hfix
    have hfind : Values.find k acc = none := by
      apply find_eq_none_of_forall_ne
      intro kv hkv
      exact Nat.ne_of_lt (hacc kv hkv (k, v) (List.mem_cons_self _ _))
    have happ : Values.insertSorted k v acc = acc ++ [(k, v)] :=
      insertSorted_append k v acc fun kv hkv =>
        hacc kv hkv (k, v) (List.mem_cons_self _ _)
    simp only [Values.fromViewList, Values.insert, Values.insertValue, hwrap,
      hfind, happ]
    have hacc2 : ∀ kv ∈ acc ++ [(k, v)], ∀ kv2 ∈ tl, kv.1 < kv2.1 := by
      intro kv hkv kv2 hkv2
      rcases List.mem_append.mp hkv with hin | hin
      · exact hacc kv hin kv2 (List.mem_cons_of_mem _ hkv2)
      · have : kv = (k, v) := by simpa using hin
        rw [this]
        exact hrel kv2 hkv2
    rw [ih (acc ++ [(k, v)]) htl
      (fun kv hkv => hw kv (List.mem_cons_of_mem _ hkv)) hacc2]
    simp

/-- In a strictly key-sorted list, `find` after `filter` succeeds exactly
on the entries that are found in the source and pass the predicate. -/
lemma find_filter (p : Key × CVal → Bool) (vs : Values) :
    Values.sortedKeys vs →
    ∀ (k : Key) (v : CVal),
    (Values.find k (List.filter p vs) = some v ↔
      Values.find k vs = some v ∧ p (k, v) = true) := by
  induction vs with
  | nil =>
    intro _ k v
    simp [Values.find]
  | cons hd tl ih =>
    intro hs k v
    obtain ⟨k2, w⟩ := hd
    rcases List.pairwise_cons.mp hs with ⟨hrel, htl⟩
    by_cases hp : p (k2, w) = true
    · rw [List.filter_cons_of_pos hp]
      by_cases hk : k = k2
      · subst hk
        simp only [Values.find, if_pos rfl]
        constructor
        · intro h
          obtain rfl : w = v := Option.some.inj h
          exact ⟨rfl, hp⟩
        · intro h
          exact h.1
      · simp only [Values.find, if_neg hk]
        exact ih htl k v
    · rw [List.filter_cons_of_neg (by simpa using hp)]
      by_cases hk : k = k2
      · subst hk
        have hnone : Values.find k (List.filter p tl) = none := by
          apply find_eq_none_of_forall_ne
          intro kv hkv
          exact Nat.ne_of_gt (hrel kv (List.mem_of_mem_filter hkv))
        rw [hnone]
        simp only [Values.find, if_pos rfl]
        constructor
        · intro h
          cases h
        · rintro ⟨h1, h2⟩
          obtain rfl : w = v := Option.some.inj h1
          exact absurd h2 hp
      · rw [ih htl k v]
        simp only [Values.find, if_neg hk]

/-- C6: constructing a new container from the view `filter<T>(pred)` over a
key-sorted container satisfying the promotion invariant succeeds, and the
new container holds exactly the entries of the source whose stored concrete
type is `T` and whose key satisfies `pred`, each under its original key with
an equal value. -/
theorem C6_view_to_container (vs : Values) (T : CType) (pred : Key → Bool)
    (hs : Values.sortedKeys vs) (hinv : Values.storedTypesOK vs) :
    Values.ofConstFiltered T pred vs =
      .ok (List.filter (Values.filterHelper T pred) vs) ∧
    ∀ (k : Key) (v : CVal),
      (Values.find k (List.filter (Values.filterHelper T pred) vs) = some v ↔
        Values.find k vs = some v ∧ CVal.ctype v = T ∧ pred k = true) := by
  have hfl : List.Pairwise (fun a b => a.1 < b.1)
      (List.filter (Values.filterHelper T pred) vs) := hs.filter _
  constructor
  · have h := fromViewList_append (List.filter (Values.filterHelper T pred) vs)
      [] hfl
      (fun kv hkv => hinv kv (List.mem_of_mem_filter hkv))
      (fun kv hkv => by cases hkv)
    simpa [Values.ofConstFiltered, Values.filter] using h
  · intro k v
    rw [find_filter (Values.filterHelper T pred) vs hs k v]
    simp only [Values.filterHelper, Bool.and_eq_true, beq_iff_eq]
    tauto

/-- Witness for C6 at a concrete mixed-type container with the key
predicate selecting key 1. -/
theorem C6_witness :
    Values.ofConstFiltered (CType.manifold 0) (fun k => k == 1)
      [(1, CVal.manifold 0 3), (2, CVal.vecD [1, 2]), (3, CVal.manifold 0 7)] =
      .ok [(1, CVal.manifold 0 3)] :=
  (C6_view_to_container
    [(1, CVal.manifold 0 3), (2, CVal.vecD [1, 2]), (3, CVal.manifold 0 7)]
    (CType.manifold 0) (fun k => k == 1) (by decide) (by decide)).1

end gtsam
